import Mathlib

/-!
Verification of the local Codewind lifecycle controller
(`src/dev/src/codewind/connection/local/LocalCodewindManager.ts`).

The manager is embedded shallowly: its mutable fields (`_localConnection`,
`_state`) become an explicit `Mgr` record, and each public operation becomes
a pure function from the pre-state and the outcomes of its collaborator
calls (CLI wrapper, connection manager, ping requester) to the post-state
together with the externally observable effects (error notifications shown,
connections removed from the registry, probe calls made).
-/

namespace Codewind

/-- Modelled from the spec: the `CodewindStates` enum lives outside the
given sources; the spec lists exactly the five states
`Stopped | Starting | Started | Stopping | ErrorConnecting`, matching the
members referenced by `LocalCodewindManager.ts`. -/
inductive CodewindStates where
  | STOPPED
  | STARTING
  | STARTED
  | STOPPING
  | ERR_CONNECTING
deriving DecidableEq

/-- Modelled from the spec and JS semantics: a `vscode.Uri` is a JS
object, so a value of this type stands for an object *reference*: `ref`
identifies the object and `address` is its textual value.  The source's
`cwUrl !== this.localConnection.url` is JS reference inequality, rendered
here as structural inequality of this pair: the same reference is the same
object (same `ref`, same `address`), and two distinct objects have
distinct `ref`s however their addresses compare — in particular a freshly
parsed `Uri` with an unchanged address is a different reference. -/
structure Uri where
  ref : Nat
  address : String
deriving DecidableEq

/-- Modelled from the spec: `Connection` (produced by
`ConnectionManager.connectLocal`) is outside the given sources; the spec
describes it as an immutable value carrying its address.  Only its `url`
field — a `vscode.Uri` object reference — is read by
`LocalCodewindManager.refresh`. -/
structure Connection where
  url : Uri
deriving DecidableEq

/-- The manager's mutable state: `_localConnection` and `_state` of
`LocalCodewindManager`. -/
structure Mgr where
  localConnection : Option Connection
  state : CodewindStates
deriving DecidableEq

/-- The freshly constructed singleton: `_localConnection` starts unset and
`_state` starts at `CodewindStates.STOPPED`. -/
def initialMgr : Mgr := ⟨none, CodewindStates.STOPPED⟩

/-- Modelled from the spec: errors thrown by the CLI wrapper are either a
user cancellation (recognised by `CLIWrapper.isCancellation`) or an
ordinary failure. -/
inductive CLIErr where
  | cancellation
  | other
deriving DecidableEq

/-- Embeds `CLIWrapper.isCancellation`, modelled from the spec's error taxonomy. -/
def isCancellation : CLIErr → Bool
  | CLIErr.cancellation => true
  | CLIErr.other => false

/-- Embeds `changeState`: unconditionally overwrites `_state` (and broadcasts the
change to listeners, which has no effect on the manager's own fields). -/
def changeState (m : Mgr) (newState : CodewindStates) : Mgr :=
  { m with state := newState }

/-- The `isStarted` getter:
`this._state === CodewindStates.STARTED || this._state === CodewindStates.STOPPING`. -/
def isStarted (m : Mgr) : Bool :=
  m.state == CodewindStates.STARTED || m.state == CodewindStates.STOPPING

/-- Embeds `connect(cwUrl)`: on success of `ConnectionManager.connectLocal` the
returned connection is stored and the state set to `STARTED`; on failure the
state is set to `ERR_CONNECTING` and one error message is shown
(`vscode.window.showErrorMessage`).  The second component counts the error
notifications surfaced to the operator.  Note that on failure the
assignment to `_localConnection` never executes, so the field keeps its
previous value. -/
def connect (m : Mgr) (connectRes : Except Unit Connection) : Mgr × Nat :=
  match connectRes with
  | Except.ok conn =>
      (changeState { m with localConnection := some conn } CodewindStates.STARTED, 0)
  | Except.error _ =>
      (changeState m CodewindStates.ERR_CONNECTING, 1)

/-- Embeds `startCodewindInner()`: runs `CLILifecycleWrapper.installAndStart`
(whose failure propagates with no state change), then
`CLILifecycleWrapper.getCodewindUrl`; a url-query failure or a missing url
sets `ERR_CONNECTING` and rethrows (the missing-url case throws an ordinary
`Error`, caught by the same catch block).  Returns the possibly updated
state together with the url or the propagated error. -/
def startCodewindInner (m : Mgr) (installRes : Except CLIErr Unit)
    (urlRes : Except CLIErr (Option Uri)) : Mgr × Except CLIErr Uri :=
  match installRes with
  | Except.error e => (m, Except.error e)
  | Except.ok _ =>
      match urlRes with
      | Except.error e => (changeState m CodewindStates.ERR_CONNECTING, Except.error e)
      | Except.ok none => (changeState m CodewindStates.ERR_CONNECTING, Except.error CLIErr.other)
      | Except.ok (some url) => (m, Except.ok url)

/-- Embeds `startCodewind()`: calls `startCodewindInner`; if it throws, a CLI error
is shown unless the error is a cancellation, and the method returns;
otherwise it proceeds to `connect`.  The second component counts the error
notifications surfaced to the operator. -/
def startCodewind (m : Mgr) (installRes : Except CLIErr Unit)
    (urlRes : Except CLIErr (Option Uri))
    (connectRes : Except Unit Connection) : Mgr × Nat :=
  match startCodewindInner m installRes urlRes with
  | (m2, Except.error e) => (m2, if isCancellation e then 0 else 1)
  | (m2, Except.ok _) => connect m2 connectRes

/-- Embeds `stopCodewind()`: awaits `CLILifecycleWrapper.stop()`; if that call
rejects, the rejection propagates and the line clearing `_localConnection`
never runs; if it succeeds, `_localConnection` is cleared.  No call to
`changeState` appears in the method. -/
def stopCodewind (m : Mgr) (stopRes : Except Unit Unit) : Except Unit Mgr :=
  match stopRes with
  | Except.error e => Except.error e
  | Except.ok _ => Except.ok { m with localConnection := none }

/-- The observable outcome of `refresh()`: the resulting manager state, the
returned boolean, the connections passed to
`ConnectionManager.removeConnection`, and the error notifications shown. -/
structure RefreshResult where
  mgr : Mgr
  changed : Bool
  released : List Connection
  errorsShown : Nat
deriving DecidableEq

/-- Embeds `refresh()`: queries `CLILifecycleWrapper.getCodewindUrl` (`none` when
the url is unavailable); if a local connection exists, a url was returned,
and `cwUrl !== this.localConnection.url` — a JS *reference* comparison
between the two `vscode.Uri` objects, rendered as inequality of `Uri`
values (which embed the object identity), so a fresh `Uri` with an
unchanged address still differs — the old connection is removed from the
registry, `connect` is called with the new url, and `true` is returned;
otherwise `false` is returned with nothing touched. -/
def refresh (m : Mgr) (urlRes : Option Uri)
    (connectRes : Except Unit Connection) : RefreshResult :=
  match m.localConnection, urlRes with
  | some conn, some url =>
      if url ≠ conn.url then
        let c := connect m connectRes
        ⟨c.1, true, [conn], c.2⟩
      else ⟨m, false, [], 0⟩
  | _, _ => ⟨m, false, [], 0⟩

/-- The observable outcome of one poll session inside
`waitForCodewindToStartTheia`: whether the promise resolved `true`
(Codewind came up), how many times `Requester.ping` was invoked, and the
attempt numbers at which `onTheiaStartTimeout(false, _)` (the escalation
warning) fired. -/
structure PollResult where
  ready : Bool
  calls : Nat
  escs : List Nat
deriving DecidableEq

/-- One step of the `setInterval` callback, driven by `fuel` remaining
ticks (the loop resolves after at most `maxTries + 1` ticks, so any
`fuel ≥ maxTries + 1 - tries` is enough).  Each tick increments `tries`,
invokes the probe, resolves `true` on probe success, resolves `false` when
`tries > maxTries`, and fires the escalation callback when
`tries = escAt`. -/
def pollAux (probe : Nat → Bool) (maxTries escAt : Nat) :
    Nat → Nat → List Nat → Nat → PollResult
  | _, calls, escs, 0 => ⟨false, calls, escs⟩
  | tries, calls, escs, fuel + 1 =>
      let t := tries + 1
      if probe t then ⟨true, calls + 1, escs⟩
      else if maxTries < t then ⟨false, calls + 1, escs⟩
      else if t = escAt then pollAux probe maxTries escAt t (calls + 1) (escs ++ [t]) fuel
      else pollAux probe maxTries escAt t (calls + 1) escs fuel

/-- A whole poll session: `tries` starts at `0` and the loop needs at most
`maxTries + 1` ticks to resolve. -/
def runPoll (probe : Nat → Bool) (maxTries escAt : Nat) : PollResult :=
  pollAux probe maxTries escAt 0 0 [] (maxTries + 1)

/-- JavaScript's `Math.round (m / 2)` for a natural `m` (halves round up),
as used for `longerThanUsualTries`. -/
def roundHalf (m : Nat) : Nat := (m + 1) / 2

/-- Embeds `waitForCodewindToStartTheia()`: sets `STARTING`, polls the fixed Che
url with `timeoutS = 180`, `delayS = 2`, hence `maxTries = 90` and
`longerThanUsualTries = Math.round(90 / 2) = 45`; on a ready resolution it
calls `connect`, otherwise it shows one terminal error message
(`onTheiaStartTimeout(true, _)` uses `showErrorMessage`) and sets
`ERR_CONNECTING`. -/
def waitForCodewindToStartTheia (m : Mgr) (probe : Nat → Bool)
    (connectRes : Except Unit Connection) : Mgr × Nat :=
  let m1 := changeState m CodewindStates.STARTING
  let maxTries := 180 / 2
  let r := runPoll probe maxTries (roundHalf maxTries)
  if r.ready then connect m1 connectRes
  else (changeState m1 CodewindStates.ERR_CONNECTING, 1)

/-- One invocation of a public operation, packaged with the outcomes of the
collaborator calls it makes (the collaborators are external to the manager
and may answer anything). -/
inductive Op where
  | start (installRes : Except CLIErr Unit) (urlRes : Except CLIErr (Option Uri))
      (connectRes : Except Unit Connection)
  | connectTo (connectRes : Except Unit Connection)
  | stop (stopRes : Except Unit Unit)
  | refreshOp (urlRes : Option Uri) (connectRes : Except Unit Connection)
  | theiaWait (probe : Nat → Bool) (connectRes : Except Unit Connection)

/-- The effect of one public operation on the manager's fields.  A
rejected `stopCodewind` leaves the fields as they were (the rejection
propagates to the caller before the clearing line runs). -/
def applyOp (m : Mgr) : Op → Mgr
  | Op.start i u c => (startCodewind m i u c).1
  | Op.connectTo c => (connect m c).1
  | Op.stop r =>
      match stopCodewind m r with
      | Except.ok m2 => m2
      | Except.error _ => m
  | Op.refreshOp u c => (refresh m u c).mgr
  | Op.theiaWait p c => (waitForCodewindToStartTheia m p c).1

/-- Running a sequence of public operations from the freshly constructed
manager. -/
def runOps (ops : List Op) : Mgr :=
  ops.foldl applyOp initialMgr

/-- The invariant claimed by the spec: `state = Started` iff a connection
is bound, and `state = Stopped` iff no connection is bound. -/
def boundInv (m : Mgr) : Prop :=
  (m.state = CodewindStates.STARTED ↔ m.localConnection ≠ none) ∧
  (m.state = CodewindStates.STOPPED ↔ m.localConnection = none)

/-- The half of the spec invariant that the code does maintain: in the
`Stopped` state no connection is bound. -/
def stoppedInv (m : Mgr) : Prop :=
  m.state = CodewindStates.STOPPED → m.localConnection = none

theorem stoppedInv_connect (m : Mgr) (c : Except Unit Connection) :
    stoppedInv (connect m c).1 := by
  cases c <;> intro hst <;> exact CodewindStates.noConfusion hst

theorem stoppedInv_applyOp (m : Mgr) (op : Op) (h : stoppedInv m) :
    stoppedInv (applyOp m op) := by
  obtain ⟨mc, ms⟩ := m
  cases op with
  | start i u c =>
      cases i with
      | error e => exact h
      | ok _ =>
          cases u with
          | error e => exact fun hst => CodewindStates.noConfusion hst
          | ok ou =>
              cases ou with
              | none => exact fun hst => CodewindStates.noConfusion hst
              | some url => exact stoppedInv_connect _ c
  | connectTo c => exact stoppedInv_connect _ c
  | stop r =>
      cases r with
      | error e => exact h
      | ok _ => exact fun _ => rfl
  | refreshOp u c =>
      cases mc with
      | none => exact h
      | some conn =>
          cases u with
          | none => exact h
          | some url =>
              show stoppedInv (refresh (Mgr.mk (some conn) ms) (some url) c).mgr
              by_cases hu : url = conn.url
              · simp only [refresh, hu, ne_eq, not_true_eq_false, if_false]
                exact h
              · simp only [refresh, ne_eq, hu, not_false_eq_true, if_true]
                exact stoppedInv_connect _ c
  | theiaWait p c =>
      show stoppedInv (waitForCodewindToStartTheia (Mgr.mk mc ms) p c).1
      unfold waitForCodewindToStartTheia
      dsimp only
      split
      · exact stoppedInv_connect _ c
      · exact fun hst => CodewindStates.noConfusion hst

theorem stoppedInv_foldl (ops : List Op) :
    ∀ m : Mgr, stoppedInv m → stoppedInv (ops.foldl applyOp m) := by
  induction ops with
  | nil => exact fun m h => h
  | cons op ops ih => exact fun m h => ih (applyOp m op) (stoppedInv_applyOp m op h)

end Codewind

namespace Codewind

/-- Claim C1 (corrected), counterexample: after a successful start that
binds a connection at address "a", a `refresh` that sees a drifted url —
a distinct `Uri` object with address "b" — but whose reconnect fails
leaves the old connection bound while the state is `ERR_CONNECTING`; so
the claimed biconditional `state = Started ↔ a connection is bound` is
false for this operation sequence. -/
theorem C1_counterexample :
    ¬ boundInv (runOps
      [Op.start (Except.ok ()) (Except.ok (some (Uri.mk 0 "a")))
         (Except.ok (Connection.mk (Uri.mk 0 "a"))),
       Op.refreshOp (some (Uri.mk 1 "b")) (Except.error ())]) := by
  unfold boundInv
  decide

/-- Claim C1 (amended): for every sequence of the public operations, if the
state is `Stopped` then no connection is bound.  (The two claimed
biconditionals fail, see the counterexample; this implication is the part
of the invariant the code maintains.) -/
theorem C1_stopped_implies_unbound (ops : List Op)
    (h : (runOps ops).state = CodewindStates.STOPPED) :
    (runOps ops).localConnection = none :=
  stoppedInv_foldl ops initialMgr (fun _ => rfl) h

/-- Witness for C1: the empty operation sequence is in the `Stopped` state
and indeed has no connection bound. -/
theorem C1_stopped_implies_unbound_witness :
    (runOps []).state = CodewindStates.STOPPED ∧ (runOps []).localConnection = none :=
  ⟨rfl, C1_stopped_implies_unbound [] rfl⟩

/-- Claim C2 (corrected), counterexample: from a started state with a bound
connection, a `stopCodewind` whose collaborator call succeeds clears the
connection but leaves the state at `STARTED` (no transition to `STOPPED`),
and one whose collaborator call fails propagates the rejection without
clearing the connection. -/
theorem C2_counterexample :
    stopCodewind (Mgr.mk (some (Connection.mk (Uri.mk 0 "a"))) CodewindStates.STARTED)
        (Except.ok ())
      = Except.ok (Mgr.mk none CodewindStates.STARTED)
    ∧ stopCodewind (Mgr.mk (some (Connection.mk (Uri.mk 0 "a"))) CodewindStates.STARTED)
        (Except.error ())
      = Except.error ()
    ∧ CodewindStates.STARTED ≠ CodewindStates.STOPPED := by
  exact ⟨rfl, rfl, by decide⟩

/-- Claim C2 (amended): when the collaborator's stop call succeeds,
`stopCodewind` clears the bound connection and performs no state
transition; when the collaborator's stop call fails, the rejection
propagates and neither the connection nor the state changes. -/
theorem C2_stop_behaviour (m : Mgr) :
    stopCodewind m (Except.ok ()) = Except.ok (Mgr.mk none m.state)
    ∧ stopCodewind m (Except.error ()) = Except.error () :=
  ⟨rfl, rfl⟩

/-- Claim C5 (corrected), counterexample: with a connection bound whose
url object carries address "a", a `refresh` whose url query returns a
*fresh* `Uri` object carrying the very same address "a" takes the drift
branch — `cwUrl !== this.localConnection.url` compares references, not
addresses — so it returns `true` and releases the old connection even
though the queried address equals the bound address; the claim's "returns
false and leaves the bound Connection and state unchanged when … the
queried address equals the bound address" is therefore false. -/
theorem C5_counterexample :
    (refresh (Mgr.mk (some (Connection.mk (Uri.mk 0 "a"))) CodewindStates.STARTED)
        (some (Uri.mk 1 "a")) (Except.ok (Connection.mk (Uri.mk 1 "a")))).changed = true
    ∧ (refresh (Mgr.mk (some (Connection.mk (Uri.mk 0 "a"))) CodewindStates.STARTED)
        (some (Uri.mk 1 "a")) (Except.ok (Connection.mk (Uri.mk 1 "a")))).released
      = [Connection.mk (Uri.mk 0 "a")]
    ∧ (Uri.mk 1 "a").address = (Uri.mk 0 "a").address := by
  decide

/-- Claim C5 (amended): `refresh` returns `true` and releases the old
connection exactly when a connection is bound, the url query returns a
`Uri` object, and that object differs *by reference* (JS `!==`) from the
bound connection's url object — in particular a freshly parsed `Uri` with
an unchanged address still counts as drift; in that case the resulting
manager state is exactly that of `connect` (so a new connection is bound
only when the reconnect succeeds, and on reconnect failure `refresh`
still returns `true` with the released connection left in the field); when
it returns `false` (no connection bound, url unavailable, or the very same
url object returned) nothing is released and the manager is unchanged. -/
theorem C5_refresh_characterisation (m : Mgr) (urlRes : Option Uri)
    (connectRes : Except Unit Connection) :
    ((refresh m urlRes connectRes).changed = true ↔
      ∃ conn url, m.localConnection = some conn ∧ urlRes = some url ∧ url ≠ conn.url)
    ∧ ((refresh m urlRes connectRes).changed = true →
        (refresh m urlRes connectRes).released = m.localConnection.toList
        ∧ (refresh m urlRes connectRes).mgr = (connect m connectRes).1
        ∧ (refresh m urlRes connectRes).errorsShown = (connect m connectRes).2)
    ∧ ((refresh m urlRes connectRes).changed = false →
        (refresh m urlRes connectRes).mgr = m
        ∧ (refresh m urlRes connectRes).released = []
        ∧ (refresh m urlRes connectRes).errorsShown = 0) := by
  obtain ⟨mc, ms⟩ := m
  cases mc with
  | none => simp [refresh]
  | some conn =>
      cases urlRes with
      | none => simp [refresh]
      | some url =>
          by_cases hu : url = conn.url
          · simp [refresh, hu]
          · simp [refresh, hu]

/-- Witness for C5: a bound connection whose url object has address "a", a
queried fresh url object with address "b", successful reconnect —
`refresh` reports a rebind, releases the old connection and binds the new
one. -/
theorem C5_refresh_characterisation_witness :
    (refresh (Mgr.mk (some (Connection.mk (Uri.mk 0 "a"))) CodewindStates.STARTED)
        (some (Uri.mk 1 "b")) (Except.ok (Connection.mk (Uri.mk 1 "b")))).changed = true
    ∧ (refresh (Mgr.mk (some (Connection.mk (Uri.mk 0 "a"))) CodewindStates.STARTED)
        (some (Uri.mk 1 "b")) (Except.ok (Connection.mk (Uri.mk 1 "b")))).released
      = [Connection.mk (Uri.mk 0 "a")]
    ∧ (refresh (Mgr.mk (some (Connection.mk (Uri.mk 0 "a"))) CodewindStates.STARTED)
        (some (Uri.mk 1 "b")) (Except.ok (Connection.mk (Uri.mk 1 "b")))).mgr
      = Mgr.mk (some (Connection.mk (Uri.mk 1 "b"))) CodewindStates.STARTED := by
  have h := C5_refresh_characterisation
    (Mgr.mk (some (Connection.mk (Uri.mk 0 "a"))) CodewindStates.STARTED)
    (some (Uri.mk 1 "b")) (Except.ok (Connection.mk (Uri.mk 1 "b")))
  have hch := h.1.mpr ⟨Connection.mk (Uri.mk 0 "a"), Uri.mk 1 "b", rfl, rfl, by decide⟩
  exact ⟨hch, (h.2.1 hch).1, (h.2.1 hch).2.1⟩

/-- Claim C6 (corrected), counterexample: a failing `connect` from a state
that already has a bound connection leaves that connection bound (the
assignment never runs), even though the state becomes `ERR_CONNECTING`; so
"no Connection is bound afterwards" is false. -/
theorem C6_counterexample :
    (connect (Mgr.mk (some (Connection.mk (Uri.mk 0 "a"))) CodewindStates.STARTED)
        (Except.error ())).1.localConnection = some (Connection.mk (Uri.mk 0 "a"))
    ∧ (connect (Mgr.mk (some (Connection.mk (Uri.mk 0 "a"))) CodewindStates.STARTED)
        (Except.error ())).1.state = CodewindStates.ERR_CONNECTING := by
  decide

/-- Claim C6 (amended): when the binding collaborator fails, `connect`
transitions to `ERR_CONNECTING` and surfaces exactly one error to the
operator, and leaves the `localConnection` field unchanged (so no
connection is bound afterwards only if none was bound before). -/
theorem C6_connect_failure (m : Mgr) :
    connect m (Except.error ())
      = (Mgr.mk m.localConnection CodewindStates.ERR_CONNECTING, 1) :=
  rfl

/-- Claim C8: when the launch step (`installAndStart`) reports a user
cancellation, `startCodewind` returns with the manager unchanged and no
error notification shown, whatever the other collaborators would have
answered. -/
theorem C8_start_cancellation (m : Mgr) (urlRes : Except CLIErr (Option Uri))
    (connectRes : Except Unit Connection) :
    startCodewind m (Except.error CLIErr.cancellation) urlRes connectRes = (m, 0) :=
  rfl

/-- Claim C9: `isStarted` is true exactly when the state is `STARTED` or
`STOPPING`; in particular in the `STOPPING` state the manager still reports
itself started although the state is not `STARTED`. -/
theorem C9_isStarted_iff (m : Mgr) :
    (isStarted m = true ↔
      (m.state = CodewindStates.STARTED ∨ m.state = CodewindStates.STOPPING))
    ∧ (m.state = CodewindStates.STOPPING →
        isStarted m = true ∧ m.state ≠ CodewindStates.STARTED) := by
  obtain ⟨mc, ms⟩ := m
  cases ms <;> simp [isStarted]

/-- Witness for C9: a manager in the `STOPPING` state reports `isStarted`
even though its state is not `STARTED`. -/
theorem C9_isStarted_iff_witness :
    isStarted (Mgr.mk none CodewindStates.STOPPING) = true
    ∧ (Mgr.mk none CodewindStates.STOPPING).state ≠ CodewindStates.STARTED :=
  (C9_isStarted_iff (Mgr.mk none CodewindStates.STOPPING)).2 rfl

/-- Claim C10: when the url query returns no url, `refresh` returns `false`
and changes nothing — no release, no reconnect, no state change — even when
a connection is bound. -/
theorem C10_refresh_unavailable (m : Mgr) (connectRes : Except Unit Connection) :
    refresh m none connectRes = ⟨m, false, [], 0⟩ := by
  obtain ⟨mc, ms⟩ := m
  cases mc <;> rfl

theorem pollAux_all_false (probe : Nat → Bool) (maxTries escAt : Nat)
    (hp : ∀ n, probe n = false) :
    ∀ fuel tries calls escs, tries + fuel = maxTries + 1 →
      (pollAux probe maxTries escAt tries calls escs fuel).ready = false
      ∧ (pollAux probe maxTries escAt tries calls escs fuel).calls = calls + fuel := by
  intro fuel
  induction fuel with
  | zero => exact fun tries calls escs _ => ⟨rfl, rfl⟩
  | succ fuel ih =>
      intro tries calls escs h
      by_cases hmt : maxTries < tries + 1
      · have hf : fuel = 0 := by omega
        subst hf
        simp [pollAux, hp (tries + 1), hmt]
      · by_cases hesc : tries + 1 = escAt
        · have := ih (tries + 1) (calls + 1) (escs ++ [tries + 1]) (by omega)
          simp only [pollAux, hp (tries + 1), if_false, Bool.false_eq_true, if_neg hmt,
            if_pos hesc]
          exact ⟨this.1, by rw [this.2]; omega⟩
        · have := ih (tries + 1) (calls + 1) escs (by omega)
          simp only [pollAux, hp (tries + 1), if_false, Bool.false_eq_true, if_neg hmt,
            if_neg hesc]
          exact ⟨this.1, by rw [this.2]; omega⟩

theorem pollAux_first_success (probe : Nat → Bool) (maxTries escAt k : Nat)
    (hk : probe k = true) (hkm : k ≤ maxTries + 1) :
    ∀ fuel tries calls escs, tries + fuel = maxTries + 1 → tries < k →
      (∀ i, tries < i → i < k → probe i = false) →
      (pollAux probe maxTries escAt tries calls escs fuel).ready = true
      ∧ (pollAux probe maxTries escAt tries calls escs fuel).calls = calls + (k - tries) := by
  intro fuel
  induction fuel with
  | zero => intro tries calls escs h hlt _; omega
  | succ fuel ih =>
      intro tries calls escs h hlt hmin
      by_cases heq : tries + 1 = k
      · subst heq
        simp [pollAux, hk]
      · have htk : tries + 1 < k := by omega
        have hpf : probe (tries + 1) = false := hmin (tries + 1) (by omega) htk
        have hmt : ¬ maxTries < tries + 1 := by omega
        by_cases hesc : tries + 1 = escAt
        · have := ih (tries + 1) (calls + 1) (escs ++ [tries + 1]) (by omega) htk
            (fun i h1 h2 => hmin i (by omega) h2)
          simp only [pollAux, hpf, if_false, Bool.false_eq_true, if_neg hmt, if_pos hesc]
          exact ⟨this.1, by rw [this.2]; omega⟩
        · have := ih (tries + 1) (calls + 1) escs (by omega) htk
            (fun i h1 h2 => hmin i (by omega) h2)
          simp only [pollAux, hpf, if_false, Bool.false_eq_true, if_neg hmt, if_neg hesc]
          exact ⟨this.1, by rw [this.2]; omega⟩

theorem pollAux_escs_stable (probe : Nat → Bool) (maxTries escAt : Nat) :
    ∀ fuel tries calls escs, escAt ≤ tries →
      (pollAux probe maxTries escAt tries calls escs fuel).escs = escs := by
  intro fuel
  induction fuel with
  | zero => exact fun tries calls escs _ => rfl
  | succ fuel ih =>
      intro tries calls escs h
      have hesc : ¬ tries + 1 = escAt := by omega
      by_cases hpt : probe (tries + 1) = true
      · simp [pollAux, hpt]
      · by_cases hmt : maxTries < tries + 1
        · simp [pollAux, hpt, hmt]
        · simp only [pollAux, hpt, if_false, Bool.false_eq_true, if_neg hmt, if_neg hesc]
          exact ih (tries + 1) (calls + 1) escs (by omega)

theorem pollAux_escs_all_fail (probe : Nat → Bool) (maxTries escAt : Nat)
    (hem : escAt ≤ maxTries) :
    ∀ fuel tries calls escs, tries + fuel = maxTries + 1 → tries < escAt →
      (∀ i, tries < i → i ≤ escAt → probe i = false) →
      (pollAux probe maxTries escAt tries calls escs fuel).escs = escs ++ [escAt] := by
  intro fuel
  induction fuel with
  | zero => intro tries calls escs h hlt _; omega
  | succ fuel ih =>
      intro tries calls escs h hlt hfail
      have hpf : probe (tries + 1) = false := hfail (tries + 1) (by omega) (by omega)
      have hmt : ¬ maxTries < tries + 1 := by omega
      by_cases hesc : tries + 1 = escAt
      · simp only [pollAux, hpf, if_false, Bool.false_eq_true, if_neg hmt, if_pos hesc]
        rw [pollAux_escs_stable probe maxTries escAt fuel (tries + 1) (calls + 1)
          (escs ++ [tries + 1]) (by omega)]
        rw [hesc]
      · simp only [pollAux, hpf, if_false, Bool.false_eq_true, if_neg hmt, if_neg hesc]
        exact ih (tries + 1) (calls + 1) escs (by omega) (by omega)
          (fun i h1 h2 => hfail i (by omega) h2)

theorem pollAux_escs_early_success (probe : Nat → Bool) (maxTries escAt k : Nat)
    (hk : probe k = true) (hke : k ≤ escAt) (hem : escAt ≤ maxTries) :
    ∀ fuel tries calls escs, tries + fuel = maxTries + 1 → tries < k →
      (∀ i, tries < i → i < k → probe i = false) →
      (pollAux probe maxTries escAt tries calls escs fuel).escs = escs := by
  intro fuel
  induction fuel with
  | zero => intro tries calls escs h hlt _; omega
  | succ fuel ih =>
      intro tries calls escs h hlt hmin
      by_cases heq : tries + 1 = k
      · subst heq
        simp [pollAux, hk]
      · have htk : tries + 1 < k := by omega
        have hpf : probe (tries + 1) = false := hmin (tries + 1) (by omega) htk
        have hmt : ¬ maxTries < tries + 1 := by omega
        have hesc : ¬ tries + 1 = escAt := by omega
        simp only [pollAux, hpf, if_false, Bool.false_eq_true, if_neg hmt, if_neg hesc]
        exact ih (tries + 1) (calls + 1) escs (by omega) htk
          (fun i h1 h2 => hmin i (by omega) h2)

/-- Claim C3 (corrected), counterexample: with `maxTries = 10` (interval
1s, timeout 10s) and a never-succeeding probe, the session resolves timed
out after 11 probe calls, not 10 — the attempt counter is incremented and
the probe invoked before the `tries > maxTries` check, so the probe runs
once more than `maxTries`. -/
theorem C3_counterexample :
    (runPoll (fun _ => false) 10 (roundHalf 10)).calls = 11
    ∧ (runPoll (fun _ => false) 10 (roundHalf 10)).calls ≠ 10
    ∧ (runPoll (fun _ => false) 10 (roundHalf 10)).ready = false := by
  decide

/-- Claim C3 (amended): for every poll session, a probe that never
succeeds resolves timed out after exactly `maxTries + 1` probe calls. -/
theorem C3_timeout_calls (probe : Nat → Bool) (maxTries escAt : Nat)
    (hp : ∀ n, probe n = false) :
    (runPoll probe maxTries escAt).ready = false
    ∧ (runPoll probe maxTries escAt).calls = maxTries + 1 := by
  have h := pollAux_all_false probe maxTries escAt hp (maxTries + 1) 0 0 [] (by omega)
  unfold runPoll
  exact ⟨h.1, by rw [h.2]; omega⟩

/-- Witness for C3: the never-succeeding probe with `maxTries = 10` makes
exactly 11 probe calls before resolving timed out. -/
theorem C3_timeout_calls_witness :
    (runPoll (fun _ => false) 10 (roundHalf 10)).ready = false
    ∧ (runPoll (fun _ => false) 10 (roundHalf 10)).calls = 10 + 1 :=
  C3_timeout_calls (fun _ => false) 10 (roundHalf 10) (fun _ => rfl)

/-- Claim C4: in every poll session (escalation point
`Math.round(maxTries / 2)`), the escalation callback fires at most once,
and it fires — at exactly the escalation attempt — precisely when no probe
call among attempts `1 .. round(maxTries / 2)` succeeds, i.e. when the
session is not yet resolved at that attempt. -/
theorem C4_escalation_once (probe : Nat → Bool) (maxTries : Nat) (hm : 1 ≤ maxTries) :
    ((runPoll probe maxTries (roundHalf maxTries)).escs = []
      ∨ (runPoll probe maxTries (roundHalf maxTries)).escs = [roundHalf maxTries])
    ∧ ((runPoll probe maxTries (roundHalf maxTries)).escs = [roundHalf maxTries]
        ↔ ∀ i, 1 ≤ i → i ≤ roundHalf maxTries → probe i = false) := by
  have h1 : 1 ≤ roundHalf maxTries := by unfold roundHalf; omega
  have h2 : roundHalf maxTries ≤ maxTries := by unfold roundHalf; omega
  by_cases hall : ∀ i, 1 ≤ i → i ≤ roundHalf maxTries → probe i = false
  · have h := pollAux_escs_all_fail probe maxTries (roundHalf maxTries) h2 (maxTries + 1)
      0 0 [] (by omega) (by omega) (fun i hi1 hi2 => hall i (by omega) hi2)
    have he : (runPoll probe maxTries (roundHalf maxTries)).escs = [roundHalf maxTries] := by
      unfold runPoll
      rw [h]
      rfl
    exact ⟨Or.inr he, by rw [he]; exact ⟨fun _ => hall, fun _ => rfl⟩⟩
  · have hex : ∃ n, 1 ≤ n ∧ n ≤ roundHalf maxTries ∧ probe n = true := by
      by_contra hcon
      push_neg at hcon
      exact hall fun i hi1 hi2 => by
        have := hcon i hi1 hi2
        simpa using this
    have hexk : ∃ n, 1 ≤ n ∧ probe n = true := by
      obtain ⟨n, hn1, _, hn3⟩ := hex
      exact ⟨n, hn1, hn3⟩
    classical
    let k := Nat.find hexk
    have hkspec : 1 ≤ k ∧ probe k = true := Nat.find_spec hexk
    have hkle : k ≤ roundHalf maxTries := by
      obtain ⟨n, hn1, hn2, hn3⟩ := hex
      exact le_trans (Nat.find_min' hexk ⟨hn1, hn3⟩) hn2
    have hmin : ∀ i, 0 < i → i < k → probe i = false := by
      intro i hi1 hi2
      have := Nat.find_min hexk hi2
      simp only [not_and] at this
      have := this hi1
      simpa using this
    have he : (runPoll probe maxTries (roundHalf maxTries)).escs = [] :=
      pollAux_escs_early_success probe maxTries (roundHalf maxTries) k hkspec.2 hkle h2
        (maxTries + 1) 0 0 [] (by omega) (by omega) (fun i hi1 hi2 => hmin i hi1 hi2)
    refine ⟨Or.inl he, ?_, fun hcon => absurd hcon hall⟩
    intro habs
    rw [he] at habs
    exact List.noConfusion habs

/-- Witness for C4: with `maxTries = 10` and a never-succeeding probe the
escalation fires exactly once, at attempt `round(10 / 2) = 5`. -/
theorem C4_escalation_once_witness :
    (1 : Nat) ≤ 10
    ∧ (((runPoll (fun _ => false) 10 (roundHalf 10)).escs = []
        ∨ (runPoll (fun _ => false) 10 (roundHalf 10)).escs = [roundHalf 10])
      ∧ ((runPoll (fun _ => false) 10 (roundHalf 10)).escs = [roundHalf 10]
          ↔ ∀ i, 1 ≤ i → i ≤ roundHalf 10 → (fun _ => false : Nat → Bool) i = false)) :=
  ⟨by omega, C4_escalation_once (fun _ => false) 10 (by omega)⟩

/-- Claim C7: in every poll session, the first successful probe call
resolves the session ready immediately: if the probe first succeeds at
attempt `k` (and `k` is within the session's reach), the session resolves
ready after exactly `k` probe calls. -/
theorem C7_first_success_resolves (probe : Nat → Bool) (maxTries escAt k : Nat)
    (hk : probe k = true) (hmin : ∀ i, 0 < i → i < k → probe i = false)
    (hk1 : 1 ≤ k) (hkm : k ≤ maxTries + 1) :
    (runPoll probe maxTries escAt).ready = true
    ∧ (runPoll probe maxTries escAt).calls = k := by
  have h := pollAux_first_success probe maxTries escAt k hk hkm (maxTries + 1) 0 0 []
    (by omega) (by omega) (fun i hi1 hi2 => hmin i hi1 hi2)
  unfold runPoll
  exact ⟨h.1, by rw [h.2]; omega⟩

/-- Witness for C7: with `maxTries = 10` and a probe that first succeeds on
its 6th call, the session resolves ready after exactly 6 probe calls. -/
theorem C7_first_success_resolves_witness :
    (runPoll (fun n => n == 6) 10 (roundHalf 10)).ready = true
    ∧ (runPoll (fun n => n == 6) 10 (roundHalf 10)).calls = 6 :=
  C7_first_success_resolves (fun n => n == 6) 10 (roundHalf 10) 6 (by decide)
    (fun i _ hi2 => by simp; omega) (by omega) (by omega)

end Codewind
